import Mathlib

/-!
Verification of the `graphs` native module (src/native.cpp).

A shallow embedding of the SVG chart module: the CSV / coordinate-pair
parsers, the coordinate scaler, the line/bar/scatter chart builders and
the self-contained pie renderer, together with proofs of the spec's
claims about them.

Embedding conventions:
* C++ `double` values are idealized as exact rationals (`ℚ`); no
  floating-point rounding is modelled.  The literals `0.05`, `1.5` and
  `1.1` of the source become `1/20`, `3/2` and `11/10`.
* `std::string` data is modelled as `String` / `List Char`.
* The accumulating SVG string is modelled as a list of abstract markup
  elements (`SVGElem`), one element per `svg +=` append of the source.
  Constant attributes (fonts, opacities, the fixed rotation transform)
  that never vary are not recorded.  For pie slices the emitted path
  coordinates are `cx + r·cos(θ·π/180)` and `cy + r·sin(θ·π/180)` for
  the stored angles, so the element records the determining angles.
* Each exported function returns `Option (List SVGElem)`: `none` models
  "return false without producing or writing any document"; `some doc`
  models building `doc`, writing it to the fixed filename and returning
  true.  (Filesystem write failure and the browser launch are
  environment effects outside the embedding.)
* `std::stod` is modelled by a decidable recognizer `stodRep` for
  the strtod decimal format (optional whitespace and sign, digits with an
  optional fraction and exponent, trailing characters ignored) followed
  by an exact rational valuation `repVal`.  The hexadecimal, infinity
  and NaN forms of strtod are not modelled.
-/

namespace Graphs

/-- A data point, `graphs::Point` of the source (`double x, y`). -/
structure Point where
  x : ℚ
  y : ℚ
deriving DecidableEq

/-- `graphs::GraphConfig` of the source. -/
structure GraphConfig where
  width : ℤ
  height : ℤ
  padding : ℤ
  title : String
  xlabel : String
  ylabel : String
  color : String
  bgColor : String
  showGrid : Bool
  showLegend : Bool
deriving DecidableEq

/-- The default-constructed `GraphConfig` with the title possibly
replaced, exactly as every exported chart function builds it. -/
def configFor (title : Option String) : GraphConfig :=
  GraphConfig.mk 800 600 60 (title.getD "Graph") "X" "Y" "#2563eb" "#ffffff" true true

/-- The token split performed by the `std::getline(ss, item, ',')` loops:
read up to the next `','` (consuming it); a final empty read at end of
input fails and ends the loop, so a trailing separator yields no empty
final token while an empty input yields no token at all. -/
def getlineSplit : List Char → List (List Char)
  | [] => []
  | c :: cs =>
    if c = ',' then [] :: getlineSplit cs
    else
      match getlineSplit cs with
      | [] => [[c]]
      | t :: ts => (c :: t) :: ts

/-- `isspace` of the C default locale, used by strtod to skip leading
whitespace. -/
def isSpaceC (c : Char) : Bool :=
  c == ' ' || c == '\t' || c == '\n' || c == '\x0b' || c == '\x0c' || c == '\r'

/-- Decimal digit string to a natural number. -/
def digitsToNat (ds : List Char) : ℕ :=
  ds.foldl (fun a c => 10 * a + (c.toNat - '0'.toNat)) 0

/-- The decimal-number recognizer of `std::stod` (strtod): skip
whitespace, optional sign, integer digits, optional `'.'` and fraction
digits (at least one digit overall), optional exponent (only taken when
digits follow), everything after the recognized prefix ignored.  Returns
`(signed mantissa digits as an integer, number of fraction digits,
exponent)`, or `none` when no conversion is possible (the `catch (...)`
case of the source). -/
def stodRep (cs : List Char) : Option (ℤ × ℕ × ℤ) :=
  let cs1 := cs.dropWhile isSpaceC
  let neg : Bool := cs1.head? = some '-'
  let cs2 := if cs1.head? = some '-' ∨ cs1.head? = some '+' then cs1.tail else cs1
  let ip := cs2.takeWhile Char.isDigit
  let rest1 := cs2.dropWhile Char.isDigit
  let fp := if rest1.head? = some '.' then rest1.tail.takeWhile Char.isDigit else []
  let rest2 := if rest1.head? = some '.' then rest1.tail.dropWhile Char.isDigit else rest1
  if ip.isEmpty && fp.isEmpty then none
  else
    let mant : ℤ := (digitsToNat ip : ℤ) * 10 ^ fp.length + (digitsToNat fp : ℤ)
    let eVal : ℤ :=
      if rest2.head? = some 'e' ∨ rest2.head? = some 'E' then
        let rest3 := rest2.tail
        let esgn : ℤ := if rest3.head? = some '-' then -1 else 1
        let rest4 := if rest3.head? = some '-' ∨ rest3.head? = some '+' then rest3.tail else rest3
        let eds := rest4.takeWhile Char.isDigit
        if eds.isEmpty then 0 else esgn * (digitsToNat eds : ℤ)
      else 0
    some ((if neg then -1 else 1) * mant, fp.length, eVal)

/-- The exact rational value of a recognized decimal number:
`mantissa / 10 ^ fractionDigits * 10 ^ exponent`. -/
def repVal (r : ℤ × ℕ × ℤ) : ℚ :=
  (r.1 : ℚ) / (10 : ℚ) ^ r.2.1 * (10 : ℚ) ^ r.2.2

/-- `std::stod` on one token: `some` value on success, `none` when the
conversion throws. -/
def stod (cs : List Char) : Option ℚ :=
  (stodRep cs).map repVal

/-- `graphs::parseCSV`: split on `','` and accumulate the values whose
`std::stod` conversion succeeds, skipping the rest. -/
def parseCSV (s : String) : List ℚ :=
  (getlineSplit s.data).foldl
    (fun values item =>
      match stod item with
      | some v => values ++ [v]
      | none => values) []

/-- The body of the `graphs::parsePoints` loop: `pair.find(':')`, then
`std::stod` on `pair.substr(0, colon)` and `pair.substr(colon + 1)`; any
failure skips the pair. -/
def pointOfSegment (pair : List Char) : Option Point :=
  match pair.findIdx? (· == ':') with
  | some colon =>
    match stod (pair.take colon), stod (pair.drop (colon + 1)) with
    | some x, some y => some (Point.mk x y)
    | _, _ => none
  | none => none

/-- `graphs::parsePoints`: split on `','` and accumulate the coordinate
pairs that parse, skipping the rest. -/
def parsePoints (s : String) : List Point :=
  (getlineSplit s.data).foldl
    (fun points pair =>
      match pointOfSegment pair with
      | some p => points ++ [p]
      | none => points) []

/-- The spec-worded form (§4.1): `parseValues` splits on `,`
and, for each segment, attempts numeric conversion, dropping the segment
on failure; an ordered sequence of numbers results. -/
def parseValuesSpec (s : String) : List ℚ :=
  (getlineSplit s.data).filterMap stod

/-- The spec-worded form (§4.1): for each segment, find the
first `:`; if absent, drop the segment; else convert the substrings left
and right of it independently; if either conversion fails, drop the
whole pair. -/
def pairSpec (seg : List Char) : Option Point :=
  if ':' ∈ seg then
    match stod (seg.takeWhile (· != ':')), stod ((seg.dropWhile (· != ':')).tail) with
    | some x, some y => some (Point.mk x y)
    | _, _ => none
  else none

/-- The spec-worded form (§4.1): `parsePairs` splits on `,`
and keeps one point per syntactically valid segment, in input order. -/
def parsePairsSpec (s : String) : List Point :=
  (getlineSplit s.data).filterMap pairSpec

/-- The pair-level recognizer underlying `pointOfSegment` (used to
evaluate concrete inputs at the decidable level). -/
def pointRepOfSegment (pair : List Char) : Option ((ℤ × ℕ × ℤ) × (ℤ × ℕ × ℤ)) :=
  match pair.findIdx? (· == ':') with
  | some colon =>
    match stodRep (pair.take colon), stodRep (pair.drop (colon + 1)) with
    | some x, some y => some (x, y)
    | _, _ => none
  | none => none

/-- Valuation of a recognized pair. -/
def pointOfReps (r : (ℤ × ℕ × ℤ) × (ℤ × ℕ × ℤ)) : Point :=
  Point.mk (repVal r.1) (repVal r.2)

lemma parseCSV_go (l : List (List Char)) (acc : List ℚ) :
    l.foldl
      (fun values item =>
        match stod item with
        | some v => values ++ [v]
        | none => values) acc
      = acc ++ l.filterMap stod := by
  induction l generalizing acc with
  | nil => simp
  | cons a l ih =>
    simp only [List.foldl_cons, List.filterMap_cons]
    cases h : stod a with
    | none => simp [h, ih]
    | some b => simp [h, ih]

lemma parseCSV_filterMap (s : String) :
    parseCSV s = (getlineSplit s.data).filterMap stod := by
  unfold parseCSV
  simpa using parseCSV_go (getlineSplit s.data) []

lemma parsePoints_go (l : List (List Char)) (acc : List Point) :
    l.foldl
      (fun points pair =>
        match pointOfSegment pair with
        | some p => points ++ [p]
        | none => points) acc
      = acc ++ l.filterMap pointOfSegment := by
  induction l generalizing acc with
  | nil => simp
  | cons a l ih =>
    simp only [List.foldl_cons, List.filterMap_cons]
    cases h : pointOfSegment a with
    | none => simp [h, ih]
    | some b => simp [h, ih]

lemma parsePoints_filterMap (s : String) :
    parsePoints s = (getlineSplit s.data).filterMap pointOfSegment := by
  unfold parsePoints
  simpa using parsePoints_go (getlineSplit s.data) []

lemma colon_split (seg : List Char) (i : ℕ) (h : seg.findIdx? (· == ':') = some i) :
    seg.take i = seg.takeWhile (· != ':')
      ∧ seg.drop (i + 1) = (seg.dropWhile (· != ':')).tail := by
  induction seg generalizing i with
  | nil => simp at h
  | cons c cs ih =>
    by_cases hc : c = ':'
    · subst hc
      simp only [List.findIdx?_cons, beq_self_eq_true, if_true, Option.some.injEq] at h
      subst h
      simp [List.takeWhile_cons, List.dropWhile_cons]
    · have hpc : (c == ':') = false := by simp [hc]
      rw [List.findIdx?_cons, hpc] at h
      simp only [Bool.false_eq_true, if_false, List.findIdx?_succ] at h
      obtain ⟨j, hj, rfl⟩ := Option.map_eq_some'.mp h
      obtain ⟨h1, h2⟩ := ih j hj
      refine ⟨?_, ?_⟩
      · simp [List.take_succ_cons, h1, List.takeWhile_cons, hpc, hc]
      · simp [List.drop_succ_cons, h2, List.dropWhile_cons, hpc, hc]

lemma colon_none (seg : List Char) (h : seg.findIdx? (· == ':') = none) :
    ':' ∉ seg := by
  intro hmem
  rw [List.findIdx?_eq_none_iff] at h
  have := h ':' hmem
  simp at this

lemma pointOfSegment_eq_pairSpec (seg : List Char) :
    pointOfSegment seg = pairSpec seg := by
  unfold pointOfSegment pairSpec
  cases h : seg.findIdx? (· == ':') with
  | none => rw [if_neg (colon_none seg h)]
  | some i =>
    obtain ⟨h1, h2⟩ := colon_split seg i h
    have hmem : ':' ∈ seg := by
      by_contra hn
      have : seg.findIdx? (· == ':') = none := by
        rw [List.findIdx?_eq_none_iff]
        intro x hx
        simp only [beq_eq_false_iff_ne, ne_eq]
        rintro rfl
        exact hn hx
      rw [this] at h
      exact Option.noConfusion h
    rw [if_pos hmem]
    simp only [h1, h2]

lemma pointOfSegment_rep (pair : List Char) :
    pointOfSegment pair = (pointRepOfSegment pair).map pointOfReps := by
  unfold pointOfSegment pointRepOfSegment
  cases pair.findIdx? (· == ':') with
  | none => rfl
  | some colon =>
    show (match stod (pair.take colon), stod (pair.drop (colon + 1)) with
      | some x, some y => some (Point.mk x y)
      | _, _ => none) = _
    cases hx : stodRep (pair.take colon) <;> cases hy : stodRep (pair.drop (colon + 1)) <;>
      simp [stod, hx, hy, pointOfReps]

lemma parseCSV_eval (s : String) (reps : List (ℤ × ℕ × ℤ))
    (h : (getlineSplit s.data).filterMap stodRep = reps) :
    parseCSV s = reps.map repVal := by
  rw [parseCSV_filterMap, ← h, List.map_filterMap]
  exact List.filterMap_congr (fun x _ => rfl)

lemma parsePoints_eval (s : String) (reps : List ((ℤ × ℕ × ℤ) × (ℤ × ℕ × ℤ)))
    (h : (getlineSplit s.data).filterMap pointRepOfSegment = reps) :
    parsePoints s = reps.map pointOfReps := by
  rw [parsePoints_filterMap, ← h, List.map_filterMap]
  exact List.filterMap_congr (fun pair _ => pointOfSegment_rep pair)

/-- C2: `parsePoints` keeps exactly one point per segment with a `':'`
and two numeric halves (the spec-worded `parsePairs`), in input order,
dropping other segments whole; `"1:2,x:9,3:4"` yields `[(1,2),(3,4)]`. -/
theorem parsePoints_matches_parsePairs_spec :
    (∀ s : String, parsePoints s = parsePairsSpec s)
      ∧ parsePoints "1:2,x:9,3:4" = [Point.mk 1 2, Point.mk 3 4] := by
  constructor
  · intro s
    rw [parsePoints_filterMap]
    unfold parsePairsSpec
    exact List.filterMap_congr (fun seg _ => pointOfSegment_eq_pairSpec seg)
  · rw [parsePoints_eval "1:2,x:9,3:4" [((1, 0, 0), (2, 0, 0)), ((3, 0, 0), (4, 0, 0))] (by decide)]
    simp [pointOfReps, repVal]

/-- C3: `parseCSV` keeps exactly the numeric tokens (the spec-worded
`parseValues`), in input order; `"1,a,3"` yields `[1,3]`. -/
theorem parseCSV_matches_parseValues_spec :
    (∀ s : String, parseCSV s = parseValuesSpec s)
      ∧ parseCSV "1,a,3" = [1, 3] := by
  constructor
  · intro s
    rw [parseCSV_filterMap]
    rfl
  · rw [parseCSV_eval "1,a,3" [(1, 0, 0), (3, 0, 0)] (by decide)]
    simp [repVal]

/-! ## The SVG document model -/

/-- One abstract markup element per `svg +=` append of the source.
Constant attributes that never vary between emissions are not recorded;
`arcPath` records the angles that determine the emitted arc
coordinates, `pieLabel` the angle determining the label position. -/
inductive SVGElem where
  | xmlDecl : SVGElem
  | svgOpen (width height : ℤ) : SVGElem
  | bgRect (fill : String) : SVGElem
  | gOpen (idName stroke : String) (strokeWidth : ℤ) : SVGElem
  | lineSeg (x1 y1 x2 y2 : ℚ) : SVGElem
  | gClose : SVGElem
  | textElem (x y : ℚ) (content : String) : SVGElem
  | polyOpen : SVGElem
  | polyPoint (x y : ℚ) : SVGElem
  | polyClose (stroke : String) : SVGElem
  | circleElem (cx cy r : ℚ) (fill : String) : SVGElem
  | rectElem (x y w h : ℚ) (fill : String) : SVGElem
  | arcPath (cx cy radius startAngle endAngle : ℚ) (largeArc sweepFlag : ℤ) (fill : String) : SVGElem
  | pieLabel (labelAngle : ℚ) (percent : ℤ) : SVGElem
  | svgClose : SVGElem
deriving DecidableEq

/-- The data-space bounding box held in the `SVGGraph` members
`minX, maxX, minY, maxY`. -/
structure Bounds where
  minX : ℚ
  maxX : ℚ
  minY : ℚ
  maxY : ℚ
deriving DecidableEq

/-- `SVGGraph::scaleX`. -/
def scaleX (cfg : GraphConfig) (b : Bounds) (x : ℚ) : ℚ :=
  let chartWidth : ℤ := cfg.width - 2 * cfg.padding
  (cfg.padding : ℚ) + (x - b.minX) / (b.maxX - b.minX) * (chartWidth : ℚ)

/-- `SVGGraph::scaleY`. -/
def scaleY (cfg : GraphConfig) (b : Bounds) (y : ℚ) : ℚ :=
  let chartHeight : ℤ := cfg.height - 2 * cfg.padding
  (cfg.height : ℚ) - (cfg.padding : ℚ) - (y - b.minY) / (b.maxY - b.minY) * (chartHeight : ℚ)

/-- `SVGGraph::init`: XML declaration, root element, background. -/
def initSVG (cfg : GraphConfig) : List SVGElem :=
  [SVGElem.xmlDecl, SVGElem.svgOpen cfg.width cfg.height, SVGElem.bgRect cfg.bgColor]

/-- `SVGGraph::drawGrid`: 11 vertical and 11 horizontal lines at
integer-division positions (C `int` arithmetic, truncating). -/
def drawGrid (cfg : GraphConfig) : List SVGElem :=
  if cfg.showGrid then
    let chartWidth : ℤ := cfg.width - 2 * cfg.padding
    let chartHeight : ℤ := cfg.height - 2 * cfg.padding
    [SVGElem.gOpen "grid" "#e5e7eb" 1]
    ++ ((List.range 11).map (fun i =>
          let x : ℤ := cfg.padding + Int.tdiv (chartWidth * i) 10
          SVGElem.lineSeg (x : ℚ) (cfg.padding : ℚ) (x : ℚ) ((cfg.height - cfg.padding : ℤ) : ℚ)))
    ++ ((List.range 11).map (fun i =>
          let y : ℤ := cfg.padding + Int.tdiv (chartHeight * i) 10
          SVGElem.lineSeg (cfg.padding : ℚ) (y : ℚ) ((cfg.width - cfg.padding : ℤ) : ℚ) (y : ℚ)))
    ++ [SVGElem.gClose]
  else []

/-- `SVGGraph::drawAxes`. -/
def drawAxes (cfg : GraphConfig) : List SVGElem :=
  [SVGElem.gOpen "axes" "#1f2937" 2,
   SVGElem.lineSeg (cfg.padding : ℚ) ((cfg.height - cfg.padding : ℤ) : ℚ)
     ((cfg.width - cfg.padding : ℤ) : ℚ) ((cfg.height - cfg.padding : ℤ) : ℚ),
   SVGElem.lineSeg (cfg.padding : ℚ) (cfg.padding : ℚ)
     (cfg.padding : ℚ) ((cfg.height - cfg.padding : ℤ) : ℚ),
   SVGElem.gClose]

/-- `SVGGraph::drawLabels`: title, X label, Y label (C `int` division
for the centering). -/
def drawLabels (cfg : GraphConfig) : List SVGElem :=
  [SVGElem.textElem ((Int.tdiv cfg.width 2 : ℤ) : ℚ) 30 cfg.title,
   SVGElem.textElem ((Int.tdiv cfg.width 2 : ℤ) : ℚ) ((cfg.height - 10 : ℤ) : ℚ) cfg.xlabel,
   SVGElem.textElem 20 ((Int.tdiv cfg.height 2 : ℤ) : ℚ) cfg.ylabel]

/-- The bounds computation of `lineChart` / `scatterPlot`: min/max fold
seeded with `points[0]`, then 5% expansion on each axis (the source
literal `0.05` idealized as `1/20`).  Called with `p0 = points[0]` and
`ps` the whole point list, exactly as the source loop revisits
`points[0]`. -/
def lineBounds (p0 : Point) (ps : List Point) : Bounds :=
  let b0 := ps.foldl
    (fun (b : Bounds) p =>
      Bounds.mk (min b.minX p.x) (max b.maxX p.x) (min b.minY p.y) (max b.maxY p.y))
    (Bounds.mk p0.x p0.x p0.y p0.y)
  let xRange := b0.maxX - b0.minX
  let yRange := b0.maxY - b0.minY
  Bounds.mk (b0.minX - xRange * (1/20)) (b0.maxX + xRange * (1/20))
    (b0.minY - yRange * (1/20)) (b0.maxY + yRange * (1/20))

/-- `SVGGraph::lineChart`: on an empty point list the accumulated
document stays empty; otherwise header, grid, axes, labels, one
polyline point per input point, one radius-4 circle per input point. -/
def lineChart (cfg : GraphConfig) (points : List Point) : List SVGElem :=
  match points with
  | [] => []
  | p0 :: _ =>
    let b := lineBounds p0 points
    initSVG cfg ++ drawGrid cfg ++ drawAxes cfg ++ drawLabels cfg
    ++ [SVGElem.polyOpen]
    ++ points.map (fun p => SVGElem.polyPoint (scaleX cfg b p.x) (scaleY cfg b p.y))
    ++ [SVGElem.polyClose cfg.color]
    ++ points.map (fun p => SVGElem.circleElem (scaleX cfg b p.x) (scaleY cfg b p.y) 4 cfg.color)
    ++ [SVGElem.svgClose]

/-- `SVGGraph::scatterPlot`: like `lineChart` but radius-5 circles
only. -/
def scatterPlot (cfg : GraphConfig) (points : List Point) : List SVGElem :=
  match points with
  | [] => []
  | p0 :: _ =>
    let b := lineBounds p0 points
    initSVG cfg ++ drawGrid cfg ++ drawAxes cfg ++ drawLabels cfg
    ++ points.map (fun p => SVGElem.circleElem (scaleX cfg b p.x) (scaleY cfg b p.y) 5 cfg.color)
    ++ [SVGElem.svgClose]

/-- The C `(int)` cast of a `double`: truncation toward zero
(numerator/denominator truncating division on the idealized rational). -/
def cIntCast (q : ℚ) : ℤ :=
  Int.tdiv q.num (q.den : ℤ)

/-- The `maxY` member fold of `SVGGraph::barChart`:
`maxY = points[0].y` then `maxY = max(maxY, p.y)` over all points.
Called with `p0 = points[0]` and `ps` the whole list. -/
def barMaxY (p0 : Point) (ps : List Point) : ℚ :=
  ps.foldl (fun m p => max m p.y) p0.y

/-- The bounds fixed by `SVGGraph::barChart`:
`minX = 0, maxX = count, minY = 0, maxY = observed max × 1.1` (the
source literal `1.1` idealized as `11/10`). -/
def barBounds (p0 : Point) (ps : List Point) : Bounds :=
  Bounds.mk 0 (ps.length : ℚ) 0 (barMaxY p0 ps * (11/10))

/-- The bar-emission loop of `SVGGraph::barChart`: for index `i` and
point `p`, one rectangle and one value label
(`std::to_string((int)points[i].y)`). -/
def barsAux (cfg : GraphConfig) (b : Bounds) (chartWidth : ℤ) (barWidth : ℚ)
    (n : ℕ) : ℕ → List Point → List SVGElem
  | _, [] => []
  | i, p :: rest =>
    let x : ℚ := (cfg.padding : ℚ) + (chartWidth : ℚ) * ((i : ℚ) + 1/2) / (n : ℚ)
    let height : ℚ := (p.y - b.minY) / (b.maxY - b.minY) * ((cfg.height - 2 * cfg.padding : ℤ) : ℚ)
    let y : ℚ := (cfg.height : ℚ) - (cfg.padding : ℚ) - height
    SVGElem.rectElem (x - barWidth / 2) y barWidth height cfg.color
      :: SVGElem.textElem x (y - 5) (toString (cIntCast p.y))
      :: barsAux cfg b chartWidth barWidth n (i + 1) rest

/-- `SVGGraph::barChart`. -/
def barChart (cfg : GraphConfig) (points : List Point) : List SVGElem :=
  match points with
  | [] => []
  | p0 :: _ =>
    let b := barBounds p0 points
    let chartWidth : ℤ := cfg.width - 2 * cfg.padding
    let barWidth : ℚ := (chartWidth : ℚ) / ((points.length : ℚ) * (3/2))
    initSVG cfg ++ drawGrid cfg ++ drawAxes cfg ++ drawLabels cfg
    ++ barsAux cfg b chartWidth barWidth points.length 0 points
    ++ [SVGElem.svgClose]

/-! ## The exported functions -/

/-- `graphs_line` after argument marshalling: parse, fail on empty,
otherwise build and emit the document. -/
def graphs_line (data : String) (title : Option String) : Option (List SVGElem) :=
  let points := parsePoints data
  if points = [] then none
  else some (lineChart (configFor title) points)

/-- The point list `graphs_bar` renders: pair form when the data
contains a `':'`, else CSV values indexed by position. -/
def barPoints (data : String) : List Point :=
  if ':' ∈ data.data then parsePoints data
  else (parseCSV data).enum.map (fun iv => Point.mk (iv.1 : ℚ) iv.2)

/-- `graphs_bar` after argument marshalling. -/
def graphs_bar (data : String) (title : Option String) : Option (List SVGElem) :=
  let points := barPoints data
  if points = [] then none
  else some (barChart (configFor title) points)

/-- `graphs_scatter` after argument marshalling. -/
def graphs_scatter (data : String) (title : Option String) : Option (List SVGElem) :=
  let points := parsePoints data
  if points = [] then none
  else some (scatterPlot (configFor title) points)

/-- The fixed 6-color pie palette. -/
def pieColors : List String :=
  ["#3b82f6", "#ef4444", "#10b981", "#f59e0b", "#8b5cf6", "#ec4899"]

/-- The slice loop of `graphs_pie`: per value one arc path (large-arc
flag `angle > 180`, sweep flag literally `1`, fill
`colors[i % colors.size()]`) and one percentage label
(`(int)(value/total*100)` at the bisecting angle). -/
def pieSlicesAux (total : ℚ) : ℕ → ℚ → List ℚ → List SVGElem
  | _, _, [] => []
  | i, startAngle, v :: rest =>
    let angle := v / total * 360
    let endAngle := startAngle + angle
    let largeArc : ℤ := if angle > 180 then 1 else 0
    let labelAngle := startAngle + angle / 2
    let percent : ℤ := cIntCast (v / total * 100)
    SVGElem.arcPath 400 320 180 startAngle endAngle largeArc 1
        (pieColors.getD (i % pieColors.length) "")
      :: SVGElem.pieLabel labelAngle percent
      :: pieSlicesAux total (i + 1) endAngle rest

/-- `graphs_pie` after argument marshalling: parse CSV values, fail on
an empty list or a zero total, else emit the fixed 800×600 canvas,
title, and slices sweeping clockwise from -90°. -/
def graphs_pie (data : String) (title : Option String) : Option (List SVGElem) :=
  let values := parseCSV data
  if values = [] then none
  else
    let total := values.foldl (fun t v => t + v) 0
    if total = 0 then none
    else
      some ([SVGElem.xmlDecl, SVGElem.svgOpen 800 600, SVGElem.bgRect "#ffffff",
             SVGElem.textElem 400 30 (title.getD "Pie Chart")]
            ++ pieSlicesAux total 0 (-90) values
            ++ [SVGElem.svgClose])

/-! ## Extraction of document parts -/

/-- The rectangles of a document, in emission order. -/
def rectsOf (doc : List SVGElem) : List (ℚ × ℚ × ℚ × ℚ) :=
  doc.filterMap (fun e =>
    match e with
    | SVGElem.rectElem x y w h _ => some (x, y, w, h)
    | _ => none)

/-- The text contents of a document, in emission order. -/
def textsOf (doc : List SVGElem) : List String :=
  doc.filterMap (fun e =>
    match e with
    | SVGElem.textElem _ _ s => some s
    | _ => none)

/-- The angle data of one emitted pie arc. -/
structure Arc where
  startAngle : ℚ
  endAngle : ℚ
  largeArc : ℤ
  sweepFlag : ℤ
deriving DecidableEq

/-- The pie arcs of a document, in emission order. -/
def arcsOf (doc : List SVGElem) : List Arc :=
  doc.filterMap (fun e =>
    match e with
    | SVGElem.arcPath _ _ _ s t la sw _ => some (Arc.mk s t la sw)
    | _ => none)

/-! ## The scaler (claim C5) -/

/-- The spec-worded form (§4.2):
`scaleX(x) = paddingLeft + (x - minX)/(maxX - minX) * innerWidth` with
`innerWidth` the canvas width minus padding on both sides. -/
def scaleXSpec (cfg : GraphConfig) (b : Bounds) (x : ℚ) : ℚ :=
  (cfg.padding : ℚ) + (x - b.minX) / (b.maxX - b.minX) * ((cfg.width - 2 * cfg.padding : ℤ) : ℚ)

/-- The spec-worded form (§4.2):
`scaleY(y) = canvasHeight - paddingBottom - (y - minY)/(maxY - minY) * innerHeight`
(Y flipped). -/
def scaleYSpec (cfg : GraphConfig) (b : Bounds) (y : ℚ) : ℚ :=
  (cfg.height : ℚ) - (cfg.padding : ℚ)
    - (y - b.minY) / (b.maxY - b.minY) * ((cfg.height - 2 * cfg.padding : ℤ) : ℚ)

/-- C5: `scaleX` and `scaleY` are exactly the affine maps of the spec,
and `scaleX` is monotone on a nondegenerate bounding box whenever the
inner width is nonnegative (the canvas is wider than twice the
padding; the program only ever uses width 800, padding 60). -/
theorem scale_affine_and_monotone :
    (∀ (cfg : GraphConfig) (b : Bounds) (x : ℚ), scaleX cfg b x = scaleXSpec cfg b x)
    ∧ (∀ (cfg : GraphConfig) (b : Bounds) (y : ℚ), scaleY cfg b y = scaleYSpec cfg b y)
    ∧ (∀ (cfg : GraphConfig) (b : Bounds) (x1 x2 : ℚ), b.minX < b.maxX →
        2 * cfg.padding ≤ cfg.width → x1 < x2 →
        scaleX cfg b x1 ≤ scaleX cfg b x2) := by
  refine ⟨fun _ _ _ => rfl, fun _ _ _ => rfl, ?_⟩
  intro cfg b x1 x2 hb hw hx
  unfold scaleX
  have hd : (0 : ℚ) < b.maxX - b.minX := sub_pos.mpr hb
  have hW : (0 : ℚ) ≤ ((cfg.width - 2 * cfg.padding : ℤ) : ℚ) := by
    have h0 : (0 : ℤ) ≤ cfg.width - 2 * cfg.padding := by omega
    exact_mod_cast h0
  have h1 : (x1 - b.minX) / (b.maxX - b.minX) ≤ (x2 - b.minX) / (b.maxX - b.minX) :=
    (div_le_div_iff_of_pos_right hd).mpr (by linarith)
  exact add_le_add_left (mul_le_mul_of_nonneg_right h1 hW) _

/-- C5 witness: concrete monotonicity instance with the default
configuration. -/
theorem scale_affine_and_monotone_witness :
    scaleX (configFor none) (Bounds.mk 0 10 0 10) 1
      ≤ scaleX (configFor none) (Bounds.mk 0 10 0 10) 2 :=
  scale_affine_and_monotone.2.2 (configFor none) (Bounds.mk 0 10 0 10) 1 2
    (by norm_num) (by decide) (by norm_num)

/-! ## Pie failure conditions (claims C1, C4) -/

lemma foldl_add_eq_sum (l : List ℚ) : l.foldl (fun t v => t + v) 0 = l.sum := by
  have key : ∀ (l : List ℚ) (a : ℚ), l.foldl (fun t v => t + v) a = a + l.sum := by
    intro l
    induction l with
    | nil => intro a; simp
    | cons v l ih => intro a; simp [List.foldl_cons, ih, List.sum_cons]; ring
  simpa using key l 0

/-- C1 counterexample: `"-1,-2"` parses to a non-empty list whose sum is
negative (hence ≤ 0), yet `graphs_pie` produces a document — the source
tests `total == 0`, not `total <= 0`. -/
theorem pie_negative_total_produces_document :
    parseCSV "-1,-2" ≠ [] ∧ (parseCSV "-1,-2").sum ≤ 0
      ∧ graphs_pie "-1,-2" none ≠ none := by
  have hv : parseCSV "-1,-2" = [-1, -2] := by
    rw [parseCSV_eval "-1,-2" [(-1, 0, 0), (-2, 0, 0)] (by decide)]
    simp [repVal]
  refine ⟨by simp [hv], by rw [hv]; norm_num, ?_⟩
  simp only [graphs_pie, hv, foldl_add_eq_sum]
  norm_num
  exact ⟨by simp, by simp⟩

/-- C1 (amended): a pie input that parses non-empty with total exactly
zero yields the failure signal and no document. -/
theorem pie_zero_total_fails (data : String) (title : Option String)
    (hne : parseCSV data ≠ []) (hz : (parseCSV data).sum = 0) :
    graphs_pie data title = none := by
  simp only [graphs_pie, foldl_add_eq_sum, if_neg hne, hz]
  simp

/-- C1 witness: `pie("0,0")` (the example given in the spec) fails. -/
theorem pie_zero_total_fails_witness :
    parseCSV "0,0" ≠ [] ∧ (parseCSV "0,0").sum = 0
      ∧ graphs_pie "0,0" none = none := by
  have hv : parseCSV "0,0" = [0, 0] := by
    rw [parseCSV_eval "0,0" [(0, 0, 0), (0, 0, 0)] (by decide)]
    simp [repVal]
  exact ⟨by simp [hv], by simp [hv],
    pie_zero_total_fails "0,0" none (by simp [hv]) (by simp [hv])⟩

/-- C4: an input whose relevant parse is empty makes the corresponding
exported function return the failure signal with no document. -/
theorem empty_parse_fails (data : String) (title : Option String) :
    (parsePoints data = [] → graphs_line data title = none)
    ∧ (parsePoints data = [] → graphs_scatter data title = none)
    ∧ (barPoints data = [] → graphs_bar data title = none)
    ∧ (parseCSV data = [] → graphs_pie data title = none) := by
  refine ⟨fun h => ?_, fun h => ?_, fun h => ?_, fun h => ?_⟩ <;>
    simp [graphs_line, graphs_scatter, graphs_bar, graphs_pie, h]

/-- C4 witness: the all-malformed input `"abc"` parses empty for every
function and all four fail. -/
theorem empty_parse_fails_witness :
    parsePoints "abc" = [] ∧ barPoints "abc" = [] ∧ parseCSV "abc" = []
      ∧ graphs_line "abc" none = none ∧ graphs_scatter "abc" none = none
      ∧ graphs_bar "abc" none = none ∧ graphs_pie "abc" none = none := by
  have h1 : parsePoints "abc" = [] := by
    rw [parsePoints_eval "abc" [] (by decide)]; rfl
  have h2 : parseCSV "abc" = [] := by
    rw [parseCSV_eval "abc" [] (by decide)]; rfl
  have h3 : barPoints "abc" = [] := by
    unfold barPoints
    rw [if_neg (by decide), h2]
    rfl
  have t := empty_parse_fails "abc" none
  exact ⟨h1, h3, h2, t.1 h1, t.2.1 h1, t.2.2.1 h3, t.2.2.2 h2⟩

/-! ## Pie arc geometry (claims C8, C9) -/

/-- The angle data of the slices emitted from start angle `a`. -/
def pieArcs (total : ℚ) : ℚ → List ℚ → List Arc
  | _, [] => []
  | a, v :: vs =>
    Arc.mk a (a + v / total * 360) (if v / total * 360 > 180 then 1 else 0) 1
      :: pieArcs total (a + v / total * 360) vs

lemma arcsOf_pieSlicesAux (total : ℚ) (vs : List ℚ) (i : ℕ) (a : ℚ) :
    arcsOf (pieSlicesAux total i a vs) = pieArcs total a vs := by
  induction vs generalizing i a with
  | nil => rfl
  | cons v vs ih =>
    simp only [pieSlicesAux, pieArcs, arcsOf, List.filterMap_cons]
    rw [← arcsOf, ih]

lemma pieArcs_length (total : ℚ) (vs : List ℚ) (a : ℚ) :
    (pieArcs total a vs).length = vs.length := by
  induction vs generalizing a with
  | nil => rfl
  | cons v vs ih => simp [pieArcs, ih]

lemma pieArcs_zip (total : ℚ) (vs : List ℚ) (a : ℚ) :
    ∀ p ∈ (pieArcs total a vs).zip vs,
      p.1.endAngle - p.1.startAngle = p.2 / total * 360
      ∧ p.1.largeArc = (if 180 < p.2 / total * 360 then 1 else 0)
      ∧ p.1.sweepFlag = 1 := by
  induction vs generalizing a with
  | nil => simp [pieArcs]
  | cons v vs ih =>
    intro p hp
    simp only [pieArcs, List.zip_cons_cons, List.mem_cons] at hp
    rcases hp with rfl | hp
    · exact ⟨by ring, rfl, rfl⟩
    · exact ih _ p hp

lemma pieArcs_head (total : ℚ) (vs : List ℚ) (a : ℚ) :
    ∀ x, (pieArcs total a vs).head? = some x → x.startAngle = a := by
  cases vs with
  | nil => simp [pieArcs]
  | cons v vs =>
    intro x hx
    simp only [pieArcs, List.head?_cons, Option.some.injEq] at hx
    rw [← hx]

lemma pieArcs_chain (total : ℚ) (vs : List ℚ) (a : ℚ) :
    List.Chain' (fun p q => q.startAngle = p.endAngle) (pieArcs total a vs) := by
  induction vs generalizing a with
  | nil => simp [pieArcs]
  | cons v vs ih =>
    rw [pieArcs, List.chain'_cons']
    exact ⟨fun q hq => pieArcs_head total vs _ q hq, ih _⟩

lemma pieArcs_sweep_sum (total : ℚ) (vs : List ℚ) (a : ℚ) :
    ((pieArcs total a vs).map (fun x => x.endAngle - x.startAngle)).sum
      = vs.sum / total * 360 := by
  induction vs generalizing a with
  | nil => simp [pieArcs]
  | cons v vs ih =>
    simp only [pieArcs, List.map_cons, List.sum_cons, ih, List.sum_cons]
    ring

lemma pieArcs_getLast (total : ℚ) : ∀ (vs : List ℚ) (a : ℚ), vs ≠ [] →
    ∃ x, (pieArcs total a vs).getLast? = some x
      ∧ x.endAngle = a + vs.sum / total * 360 := by
  intro vs
  induction vs with
  | nil => exact fun a h => absurd rfl h
  | cons v vs ih =>
    intro a _
    cases vs with
    | nil =>
      refine ⟨_, rfl, ?_⟩
      show a + v / total * 360 = a + List.sum [v] / total * 360
      simp
    | cons w ws =>
      obtain ⟨x, hx, he⟩ := ih (a + v / total * 360) (List.cons_ne_nil _ _)
      refine ⟨x, ?_, ?_⟩
      · show (pieArcs total a (v :: w :: ws)).getLast? = some x
        rw [pieArcs, pieArcs, List.getLast?_cons_cons]
        exact hx
      · rw [he]
        simp only [List.sum_cons]
        ring

lemma arcsOf_append (l1 l2 : List SVGElem) :
    arcsOf (l1 ++ l2) = arcsOf l1 ++ arcsOf l2 := by
  unfold arcsOf
  exact List.filterMap_append l1 l2 _

lemma graphs_pie_doc (data : String) (title : Option String)
    (hne : parseCSV data ≠ []) (hs : (parseCSV data).sum ≠ 0) :
    (graphs_pie data title).getD []
      = [SVGElem.xmlDecl, SVGElem.svgOpen 800 600, SVGElem.bgRect "#ffffff",
         SVGElem.textElem 400 30 (title.getD "Pie Chart")]
        ++ pieSlicesAux ((parseCSV data).sum) 0 (-90) (parseCSV data)
        ++ [SVGElem.svgClose] := by
  simp only [graphs_pie, foldl_add_eq_sum, if_neg hne, if_neg hs, Option.getD_some]

lemma arcsOf_pie_doc (data : String) (title : Option String)
    (hne : parseCSV data ≠ []) (hs : (parseCSV data).sum ≠ 0) :
    arcsOf ((graphs_pie data title).getD [])
      = pieArcs ((parseCSV data).sum) (-90) (parseCSV data) := by
  rw [graphs_pie_doc data title hne hs]
  rw [arcsOf_append, arcsOf_append]
  have h1 : arcsOf [SVGElem.xmlDecl, SVGElem.svgOpen 800 600,
      SVGElem.bgRect "#ffffff", SVGElem.textElem 400 30 (title.getD "Pie Chart")] = [] := rfl
  have h2 : arcsOf [SVGElem.svgClose] = [] := rfl
  rw [h1, h2, List.nil_append, List.append_nil]
  exact arcsOf_pieSlicesAux _ _ _ _

/-- C8: every pie document sweeps clockwise from -90°: slice `i` spans
`value_i / total * 360` degrees starting where slice `i-1` ended, its
large-arc flag is 1 exactly when that span exceeds 180°, and its sweep
flag is always 1; `pie("50,50")` yields two 180° slices with large-arc
flag 0. -/
theorem pie_slice_geometry :
    (∀ (data : String) (title : Option String),
      parseCSV data ≠ [] → (parseCSV data).sum ≠ 0 →
      (arcsOf ((graphs_pie data title).getD [])).length = (parseCSV data).length
      ∧ (∀ p ∈ (arcsOf ((graphs_pie data title).getD [])).zip (parseCSV data),
          p.1.endAngle - p.1.startAngle = p.2 / (parseCSV data).sum * 360
          ∧ p.1.largeArc = (if 180 < p.2 / (parseCSV data).sum * 360 then 1 else 0)
          ∧ p.1.sweepFlag = 1)
      ∧ (∀ x, (arcsOf ((graphs_pie data title).getD [])).head? = some x → x.startAngle = -90)
      ∧ List.Chain' (fun p q => q.startAngle = p.endAngle)
          (arcsOf ((graphs_pie data title).getD [])))
    ∧ arcsOf ((graphs_pie "50,50" none).getD [])
        = [Arc.mk (-90) 90 0 1, Arc.mk 90 270 0 1] := by
  constructor
  · intro data title hne hs
    rw [arcsOf_pie_doc data title hne hs]
    exact ⟨pieArcs_length _ _ _, pieArcs_zip _ _ _, pieArcs_head _ _ _, pieArcs_chain _ _ _⟩
  · have hv : parseCSV "50,50" = [50, 50] := by
      rw [parseCSV_eval "50,50" [(50, 0, 0), (50, 0, 0)] (by decide)]
      simp [repVal]
    have hne : parseCSV "50,50" ≠ [] := by simp [hv]
    have hs : (parseCSV "50,50").sum ≠ 0 := by rw [hv]; norm_num
    rw [arcsOf_pie_doc "50,50" none hne hs, hv]
    norm_num [pieArcs]

/-- C8 witness: the general part applied to the concrete input
`"50,50"`. -/
theorem pie_slice_geometry_witness :
    (arcsOf ((graphs_pie "50,50" none).getD [])).length = (parseCSV "50,50").length := by
  have hv : parseCSV "50,50" = [50, 50] := by
    rw [parseCSV_eval "50,50" [(50, 0, 0), (50, 0, 0)] (by decide)]
    simp [repVal]
  exact (pie_slice_geometry.1 "50,50" none (by simp [hv]) (by rw [hv]; norm_num)).1

/-- C9: for a non-empty all-positive value list the pie sweep angles
sum to exactly 360° and the final end angle is -90° + 360°. -/
theorem pie_sweeps_sum_360 (data : String) (title : Option String)
    (hne : parseCSV data ≠ []) (hpos : ∀ v ∈ parseCSV data, 0 < v) :
    ((arcsOf ((graphs_pie data title).getD [])).map
        (fun x => x.endAngle - x.startAngle)).sum = 360
    ∧ arcsOf ((graphs_pie data title).getD []) ≠ []
    ∧ (∀ x, (arcsOf ((graphs_pie data title).getD [])).getLast? = some x
        → x.endAngle = -90 + 360) := by
  have htot : (0 : ℚ) < (parseCSV data).sum := List.sum_pos _ hpos hne
  have hs : (parseCSV data).sum ≠ 0 := ne_of_gt htot
  rw [arcsOf_pie_doc data title hne hs]
  refine ⟨?_, ?_, ?_⟩
  · rw [pieArcs_sweep_sum, div_self hs, one_mul]
  · intro h
    have := pieArcs_length ((parseCSV data).sum) (parseCSV data) (-90)
    rw [h] at this
    exact hne (List.eq_nil_of_length_eq_zero this.symm)
  · intro x hx
    obtain ⟨y, hy, he⟩ := pieArcs_getLast ((parseCSV data).sum) (parseCSV data) (-90) hne
    rw [hy, Option.some.injEq] at hx
    rw [← hx, he, div_self hs, one_mul]

/-- C9 witness: the theorem applied to `"50,50"`. -/
theorem pie_sweeps_sum_360_witness :
    ((arcsOf ((graphs_pie "50,50" none).getD [])).map
        (fun x => x.endAngle - x.startAngle)).sum = 360 := by
  have hv : parseCSV "50,50" = [50, 50] := by
    rw [parseCSV_eval "50,50" [(50, 0, 0), (50, 0, 0)] (by decide)]
    simp [repVal]
  exact (pie_sweeps_sum_360 "50,50" none (by simp [hv])
    (by rw [hv]; intro v hv'; simp at hv'; rcases hv' with rfl | rfl <;> norm_num)).1

/-! ## Bar chart geometry (claims C6, C7, C10) -/

lemma rectsOf_append (l1 l2 : List SVGElem) :
    rectsOf (l1 ++ l2) = rectsOf l1 ++ rectsOf l2 := by
  unfold rectsOf
  exact List.filterMap_append l1 l2 _

lemma textsOf_append (l1 l2 : List SVGElem) :
    textsOf (l1 ++ l2) = textsOf l1 ++ textsOf l2 := by
  unfold textsOf
  exact List.filterMap_append l1 l2 _

lemma rectsOf_drawGrid (cfg : GraphConfig) : rectsOf (drawGrid cfg) = [] := by
  unfold drawGrid rectsOf
  cases cfg.showGrid <;> simp [List.filterMap_map, Function.comp]

lemma textsOf_drawGrid (cfg : GraphConfig) : textsOf (drawGrid cfg) = [] := by
  unfold drawGrid textsOf
  cases cfg.showGrid <;> simp [List.filterMap_map, Function.comp]

lemma rectsOf_fixed (cfg : GraphConfig) :
    rectsOf (initSVG cfg) = [] ∧ rectsOf (drawAxes cfg) = []
      ∧ rectsOf (drawLabels cfg) = [] := ⟨rfl, rfl, rfl⟩

lemma textsOf_fixed (cfg : GraphConfig) :
    textsOf (initSVG cfg) = [] ∧ textsOf (drawAxes cfg) = []
      ∧ textsOf (drawLabels cfg) = [cfg.title, cfg.xlabel, cfg.ylabel] := ⟨rfl, rfl, rfl⟩

lemma rectsOf_barsAux (cfg : GraphConfig) (b : Bounds) (chartWidth : ℤ)
    (barWidth : ℚ) (n : ℕ) : ∀ (l : List Point) (i : ℕ),
    rectsOf (barsAux cfg b chartWidth barWidth n i l)
      = (l.enumFrom i).map (fun ip =>
          ((cfg.padding : ℚ) + (chartWidth : ℚ) * ((ip.1 : ℚ) + 1/2) / (n : ℚ) - barWidth / 2,
           (cfg.height : ℚ) - (cfg.padding : ℚ)
             - (ip.2.y - b.minY) / (b.maxY - b.minY) * ((cfg.height - 2 * cfg.padding : ℤ) : ℚ),
           barWidth,
           (ip.2.y - b.minY) / (b.maxY - b.minY) * ((cfg.height - 2 * cfg.padding : ℤ) : ℚ))) := by
  intro l
  induction l with
  | nil => intro i; rfl
  | cons p rest ih =>
    intro i
    simp only [barsAux, rectsOf, List.filterMap_cons, List.enumFrom, List.map_cons]
    rw [← rectsOf, ih]

lemma textsOf_barsAux (cfg : GraphConfig) (b : Bounds) (chartWidth : ℤ)
    (barWidth : ℚ) (n : ℕ) : ∀ (l : List Point) (i : ℕ),
    textsOf (barsAux cfg b chartWidth barWidth n i l)
      = l.map (fun p => toString (cIntCast p.y)) := by
  intro l
  induction l with
  | nil => intro i; rfl
  | cons p rest ih =>
    intro i
    simp only [barsAux, textsOf, List.filterMap_cons, List.map_cons]
    rw [← textsOf, ih]

lemma foldl_maxY_le (l : List Point) : ∀ (a : ℚ), a ≤ l.foldl (fun m p => max m p.y) a := by
  induction l with
  | nil => intro a; simp
  | cons p rest ih =>
    intro a
    exact le_trans (le_max_left a p.y) (ih (max a p.y))

lemma foldl_maxY_mem (l : List Point) : ∀ (a : ℚ),
    l.foldl (fun m p => max m p.y) a = a
      ∨ l.foldl (fun m p => max m p.y) a ∈ l.map Point.y := by
  induction l with
  | nil => intro a; exact Or.inl rfl
  | cons p rest ih =>
    intro a
    rcases ih (max a p.y) with h | h
    · rw [List.foldl_cons, h]
      rcases max_choice a p.y with hm | hm
      · exact Or.inl hm
      · exact Or.inr (by rw [hm]; simp)
    · exact Or.inr (by simp only [List.map_cons, List.mem_cons]; exact Or.inr h)

lemma foldl_maxY_ge (l : List Point) : ∀ (a : ℚ) (p : Point), p ∈ l →
    p.y ≤ l.foldl (fun m p => max m p.y) a := by
  induction l with
  | nil => intro a p hp; cases hp
  | cons q rest ih =>
    intro a p hp
    rcases List.mem_cons.mp hp with rfl | hp
    · exact le_trans (le_max_right a p.y) (foldl_maxY_le rest (max a p.y))
    · exact ih (max a q.y) p hp

lemma barChart_doc (cfg : GraphConfig) (p0 : Point) (ps : List Point) :
    barChart cfg (p0 :: ps)
      = initSVG cfg ++ drawGrid cfg ++ drawAxes cfg ++ drawLabels cfg
        ++ barsAux cfg (barBounds p0 (p0 :: ps)) (cfg.width - 2 * cfg.padding)
            ((((cfg.width - 2 * cfg.padding : ℤ) : ℚ)) / (((p0 :: ps).length : ℚ) * (3/2)))
            (p0 :: ps).length 0 (p0 :: ps)
        ++ [SVGElem.svgClose] := rfl

/-- C6: the bar chart fixes its bounding box to
`minX = 0, maxX = count, minY = 0, maxY = 1.1 × (maximum observed y)`,
and emits exactly one rectangle per point in order, of width
`innerWidth / (count * 1.5)`, centered at the evenly spaced slot
`padding + innerWidth * (i + 1/2) / count`, with height
`(value - minY) / (maxY - minY)` of the inner chart height. -/
theorem bar_bounds_and_rectangles (cfg : GraphConfig) (p0 : Point) (ps : List Point) :
    ∃ M : ℚ,
      M ∈ (p0 :: ps).map Point.y
      ∧ (∀ v ∈ (p0 :: ps).map Point.y, v ≤ M)
      ∧ barBounds p0 (p0 :: ps) = Bounds.mk 0 (((p0 :: ps).length : ℕ) : ℚ) 0 ((11/10) * M)
      ∧ rectsOf (barChart cfg (p0 :: ps))
          = ((p0 :: ps).enum).map (fun ip =>
              ((cfg.padding : ℚ)
                 + ((cfg.width - 2 * cfg.padding : ℤ) : ℚ) * ((ip.1 : ℚ) + 1/2)
                     / (((p0 :: ps).length : ℕ) : ℚ)
                 - ((cfg.width - 2 * cfg.padding : ℤ) : ℚ)
                     / ((((p0 :: ps).length : ℕ) : ℚ) * (3/2)) / 2,
               (cfg.height : ℚ) - (cfg.padding : ℚ)
                 - (ip.2.y - 0) / ((11/10) * M - 0) * ((cfg.height - 2 * cfg.padding : ℤ) : ℚ),
               ((cfg.width - 2 * cfg.padding : ℤ) : ℚ) / ((((p0 :: ps).length : ℕ) : ℚ) * (3/2)),
               (ip.2.y - 0) / ((11/10) * M - 0) * ((cfg.height - 2 * cfg.padding : ℤ) : ℚ))) := by
  refine ⟨barMaxY p0 (p0 :: ps), ?_, ?_, ?_, ?_⟩
  · rcases foldl_maxY_mem (p0 :: ps) p0.y with h | h
    · rw [barMaxY, h]; simp
    · exact h
  · intro v hv
    obtain ⟨q, hq, rfl⟩ := List.mem_map.mp hv
    exact foldl_maxY_ge (p0 :: ps) p0.y q hq
  · rw [barBounds, mul_comm]
  · rw [barChart_doc]
    simp only [rectsOf_append]
    rw [(rectsOf_fixed cfg).1, rectsOf_drawGrid, (rectsOf_fixed cfg).2.1,
        (rectsOf_fixed cfg).2.2, rectsOf_barsAux]
    have hclose : rectsOf [SVGElem.svgClose] = [] := rfl
    rw [hclose, List.append_nil]
    simp only [List.nil_append]
    rw [show (p0 :: ps).enum = (p0 :: ps).enumFrom 0 from rfl]
    refine List.map_congr_left ?_
    intro ip _
    rw [barBounds]
    simp only [Prod.mk.injEq]
    refine ⟨trivial, by ring, trivial, by ring⟩

/-- C6 witness: the theorem at a concrete configuration and point
list. -/
theorem bar_bounds_and_rectangles_witness :
    ∃ M : ℚ, M ∈ [Point.mk 0 10, Point.mk 1 20].map Point.y
      ∧ (∀ v ∈ [Point.mk 0 10, Point.mk 1 20].map Point.y, v ≤ M)
      ∧ barBounds (Point.mk 0 10) [Point.mk 0 10, Point.mk 1 20]
          = Bounds.mk 0 ((([Point.mk 0 10, Point.mk 1 20].length : ℕ)) : ℚ) 0 ((11/10) * M) := by
  obtain ⟨M, h1, h2, h3, _⟩ :=
    bar_bounds_and_rectangles (configFor none) (Point.mk 0 10) [Point.mk 1 20]
  exact ⟨M, h1, h2, h3⟩

/-- The spec-worded form (§4.3, §8): truncation toward zero
to an integer (floor for nonnegative values, ceiling for negative
ones — not rounding). -/
def specTrunc (q : ℚ) : ℤ :=
  if 0 ≤ q then ⌊q⌋ else ⌈q⌉

lemma cIntCast_eq_specTrunc (q : ℚ) : cIntCast q = specTrunc q := by
  unfold cIntCast specTrunc
  by_cases h : 0 ≤ q
  · rw [if_pos h, Rat.floor_def]
    exact Int.tdiv_eq_ediv (Rat.num_nonneg.mpr h) (Int.ofNat_nonneg _)
  · rw [if_neg h]
    have hnum : q.num < 0 := by
      rcases lt_or_ge q.num 0 with hlt | hge
      · exact hlt
      · exact absurd (Rat.num_nonneg.mp hge) h
    calc Int.tdiv q.num (q.den : ℤ)
        = -Int.tdiv (-q.num) (q.den : ℤ) := by rw [Int.neg_tdiv, neg_neg]
      _ = -((-q.num) / (q.den : ℤ)) := by
            rw [Int.tdiv_eq_ediv (by omega) (Int.ofNat_nonneg _)]
      _ = -((-q).num / ((-q).den : ℤ)) := by rw [Rat.neg_num, Rat.neg_den]
      _ = -⌊-q⌋ := by rw [Rat.floor_def]
      _ = ⌈q⌉ := by rw [Int.floor_neg, neg_neg]

/-- C7: the text labels of a bar document are the title, the axis
labels, and then — above each bar, in order — the input value truncated
toward zero, rendered in decimal. -/
theorem bar_labels_are_truncated_values :
    (∀ q : ℚ, cIntCast q = specTrunc q)
    ∧ ∀ (cfg : GraphConfig) (p0 : Point) (ps : List Point),
        textsOf (barChart cfg (p0 :: ps))
          = cfg.title :: cfg.xlabel :: cfg.ylabel
            :: (p0 :: ps).map (fun p => toString (specTrunc p.y)) := by
  refine ⟨cIntCast_eq_specTrunc, ?_⟩
  intro cfg p0 ps
  rw [barChart_doc]
  simp only [textsOf_append]
  rw [(textsOf_fixed cfg).1, textsOf_drawGrid, (textsOf_fixed cfg).2.1,
      (textsOf_fixed cfg).2.2, textsOf_barsAux]
  have hclose : textsOf [SVGElem.svgClose] = [] := rfl
  rw [hclose, List.append_nil]
  simp only [List.nil_append, List.cons_append]
  have hmap : (p0 :: ps).map (fun p => toString (cIntCast p.y))
      = (p0 :: ps).map (fun p => toString (specTrunc p.y)) :=
    List.map_congr_left (fun p _ => by rw [cIntCast_eq_specTrunc])
  rw [hmap]

lemma foldl_maxY_congr : ∀ (ps qs : List Point), ps.map Point.y = qs.map Point.y →
    ∀ a, ps.foldl (fun m p => max m p.y) a = qs.foldl (fun m p => max m p.y) a := by
  intro ps
  induction ps with
  | nil =>
    intro qs h a
    cases qs with
    | nil => rfl
    | cons q qs => simp at h
  | cons p ps ih =>
    intro qs h a
    cases qs with
    | nil => simp at h
    | cons q qs =>
      simp only [List.map_cons, List.cons.injEq] at h
      obtain ⟨hy, hrest⟩ := h
      simp only [List.foldl_cons, hy]
      exact ih qs hrest _

lemma barsAux_congr (cfg : GraphConfig) (b : Bounds) (W : ℤ) (bw : ℚ) (n : ℕ) :
    ∀ (ps qs : List Point), ps.map Point.y = qs.map Point.y →
    ∀ i, barsAux cfg b W bw n i ps = barsAux cfg b W bw n i qs := by
  intro ps
  induction ps with
  | nil =>
    intro qs h i
    cases qs with
    | nil => rfl
    | cons q qs => simp at h
  | cons p ps ih =>
    intro qs h i
    cases qs with
    | nil => simp at h
    | cons q qs =>
      simp only [List.map_cons, List.cons.injEq] at h
      obtain ⟨hy, hrest⟩ := h
      simp only [barsAux]
      rw [hy, ih qs hrest (i + 1)]

/-- C10: the bar document depends only on the y values in order, never
on the x coordinates; in particular the pair inputs `"1:45,2:67"` and
`"10:45,99:67"` produce identical documents. -/
theorem bar_document_ignores_x :
    (∀ (cfg : GraphConfig) (ps qs : List Point),
      ps.map Point.y = qs.map Point.y → barChart cfg ps = barChart cfg qs)
    ∧ ∀ title : Option String,
        graphs_bar "1:45,2:67" title = graphs_bar "10:45,99:67" title := by
  have main : ∀ (cfg : GraphConfig) (ps qs : List Point),
      ps.map Point.y = qs.map Point.y → barChart cfg ps = barChart cfg qs := by
    intro cfg ps qs h
    cases ps with
    | nil =>
      cases qs with
      | nil => rfl
      | cons q qs => simp at h
    | cons p0 ps' =>
      cases qs with
      | nil => simp at h
      | cons q0 qs' =>
        have hlen : (p0 :: ps').length = (q0 :: qs').length := by
          have hl := congrArg List.length h
          simpa using hl
        have hy0 : p0.y = q0.y := by
          simp only [List.map_cons, List.cons.injEq] at h
          exact h.1
        have hmax : barMaxY p0 (p0 :: ps') = barMaxY q0 (q0 :: qs') := by
          unfold barMaxY
          rw [hy0]
          exact foldl_maxY_congr _ _ h q0.y
        have hbounds : barBounds p0 (p0 :: ps') = barBounds q0 (q0 :: qs') := by
          unfold barBounds
          rw [hlen, hmax]
        rw [barChart_doc, barChart_doc, hbounds, hlen,
          barsAux_congr cfg _ _ _ _ (p0 :: ps') (q0 :: qs') h 0]
  refine ⟨main, ?_⟩
  intro title
  have e1 : parsePoints "1:45,2:67" = [Point.mk 1 45, Point.mk 2 67] := by
    rw [parsePoints_eval "1:45,2:67"
      [((1, 0, 0), (45, 0, 0)), ((2, 0, 0), (67, 0, 0))] (by decide)]
    simp [pointOfReps, repVal]
  have e2 : parsePoints "10:45,99:67" = [Point.mk 10 45, Point.mk 99 67] := by
    rw [parsePoints_eval "10:45,99:67"
      [((10, 0, 0), (45, 0, 0)), ((99, 0, 0), (67, 0, 0))] (by decide)]
    simp [pointOfReps, repVal]
  unfold graphs_bar barPoints
  rw [if_pos (show ':' ∈ "1:45,2:67".data by decide),
      if_pos (show ':' ∈ "10:45,99:67".data by decide), e1, e2]
  rw [if_neg (by simp), if_neg (by simp)]
  exact congrArg some (main (configFor title) _ _ (by simp))

/-- C10 witness: the general part applied to concrete point lists with
equal y sequences. -/
theorem bar_document_ignores_x_witness :
    barChart (configFor none) [Point.mk 1 45, Point.mk 2 67]
      = barChart (configFor none) [Point.mk 10 45, Point.mk 99 67] :=
  bar_document_ignores_x.1 (configFor none) [Point.mk 1 45, Point.mk 2 67]
    [Point.mk 10 45, Point.mk 99 67] (by simp)

end Graphs
